import Mathlib

/-!
Verification of the Enlight video-processing pipeline
(`hls_converter.py`, `s3_uploader.py`) against its specification.

Python strings are modelled as `List Char`; Python floats appearing in
progress and timestamp arithmetic are modelled as exact rationals `ℚ`;
fallible operations return explicit result types.  External processes
(ffmpeg, whisper, the HTTP backend) and the filesystem are modelled by
environment records whose fields describe the outcome of each external
interaction, so that each code path of the orchestrator can be traced.
-/

namespace Enlight

/-! ### Basic string helpers (Python string operations on `List Char`) -/

/-- Decimal digit character for `d < 10` (last clause covers 9). -/
def digitCh (d : Nat) : Char :=
  match d with
  | 0 => '0' | 1 => '1' | 2 => '2' | 3 => '3' | 4 => '4'
  | 5 => '5' | 6 => '6' | 7 => '7' | 8 => '8' | _ => '9'

/-- Fuel-driven decimal rendering of a natural number, most significant
digit first; `fuel ≥ n+1` always suffices since `n` shrinks by `/10`. -/
def natCharsGo : Nat → Nat → List Char → List Char
  | 0, _, acc => acc
  | fuel + 1, n, acc =>
    if n < 10 then digitCh n :: acc
    else natCharsGo fuel (n / 10) (digitCh (n % 10) :: acc)

/-- Decimal rendering of a natural number, as Python `str(n)` / `f"{n}"`. -/
def natChars (n : Nat) : List Char := natCharsGo (n + 1) n []

/-- Python `f"{n:0wd}"`: left-pad with zeros to width `w`, the sign kept
in front of the padding. -/
def padInt (w : Nat) (n : Int) : List Char :=
  if n < 0 then
    let d := natChars n.natAbs
    '-' :: (List.replicate (w - 1 - d.length) '0' ++ d)
  else
    let d := natChars n.toNat
    List.replicate (w - d.length) '0' ++ d

/-- Python `s.replace(a, b)` for single characters `a`, `b`. -/
def replChar (a b : Char) (s : List Char) : List Char :=
  s.map fun c => if c = a then b else c

/-- Python `"\n".join(lines)`. -/
def joinNl : List (List Char) → List Char
  | [] => []
  | [l] => l
  | l :: rest => l ++ '\n' :: joinNl rest

/-! ### Quality profiles (`hls_converter.py` lines 455-461) -/

/-- The four-entry fixed quality catalog `QUALITY_PROFILES`. -/
inductive Quality where
  | q1080 | q720 | q480 | q360
deriving DecidableEq

/-- One entry of `QUALITY_PROFILES` (bitrate strings omitted: the master
playlist only reads `w`, `h` and `bandwidth`). -/
structure Profile where
  w : Nat
  h : Nat
  bandwidth : Nat

/-- `QUALITY_PROFILES` (lines 455-460). -/
def QUALITY_PROFILES : Quality → Profile
  | .q1080 => ⟨1920, 1080, 5200000⟩
  | .q720  => ⟨1280, 720, 3000000⟩
  | .q480  => ⟨854, 480, 1500000⟩
  | .q360  => ⟨640, 360, 900000⟩

/-- The dictionary key of a quality tier. -/
def Quality.name : Quality → List Char
  | .q1080 => "1080p".data
  | .q720  => "720p".data
  | .q480  => "480p".data
  | .q360  => "360p".data

/-- `QUALITY_ORDER` (line 461), the fixed descending-resolution order. -/
def QUALITY_ORDER : List Quality := [.q1080, .q720, .q480, .q360]

/-- The quality list built by `on_start` (line 1267):
`[q for q in QUALITY_ORDER if self.quality_vars[q].get()]`, with one
checkbox boolean per tier. -/
def onStartSelected (b1080 b720 b480 b360 : Bool) : List Quality :=
  QUALITY_ORDER.filter fun q =>
    match q with
    | .q1080 => b1080
    | .q720 => b720
    | .q480 => b480
    | .q360 => b360

/-! ### Master playlist (`add_master_playlist`, lines 480-491) -/

/-- The CODECS attribute chosen from audio presence (line 485). -/
def codecsTag (audioExists : Bool) : List Char :=
  if audioExists then "CODECS=\"avc1.4d401f,mp4a.40.2\"".data
  else "CODECS=\"avc1.4d401f\"".data

/-- One `#EXT-X-STREAM-INF` line (line 486). -/
def streamInfLine (q : Quality) (audioExists : Bool) : List Char :=
  let prof := QUALITY_PROFILES q
  "#EXT-X-STREAM-INF:BANDWIDTH=".data ++ natChars prof.bandwidth ++
    ",RESOLUTION=".data ++ natChars prof.w ++ "x".data ++ natChars prof.h ++
    ",".data ++ codecsTag audioExists

/-- The rendition URI line `f"{q}/index.m3u8"` (line 487). -/
def uriLine (q : Quality) : List Char := q.name ++ "/index.m3u8".data

/-- The `lines` list accumulated by `add_master_playlist` (lines 481-487). -/
def masterLines (selected : List Quality) (audioExists : Bool) : List (List Char) :=
  ["#EXTM3U".data, "#EXT-X-VERSION:3".data] ++
    selected.flatMap fun q => [streamInfLine q audioExists, uriLine q]

/-- The bytes `add_master_playlist` writes to `master.m3u8`:
`"\n".join(lines) + "\n"` (line 490). -/
def masterContent (selected : List Quality) (audioExists : Bool) : List Char :=
  joinNl (masterLines selected audioExists) ++ ['\n']

/-! ### Master playlist with subtitles
(`add_master_playlist_with_subtitles`, lines 543-610, and its helpers) -/

/-- POSIX `os.path.isabs`. -/
def isAbs (p : List Char) : Bool :=
  match p with
  | c :: _ => c = '/'
  | [] => false

/-- Path components: split on `/`, dropping empty components. -/
def pathParts (p : List Char) : List (List Char) :=
  (p.splitOn '/').filter fun part => part ≠ []

/-- Length of the common prefix of two component lists. -/
def commonLen : List (List Char) → List (List Char) → Nat
  | a :: as, b :: bs => if a = b then commonLen as bs + 1 else 0
  | _, _ => 0

/-- POSIX `os.path.relpath(target, base)`: climb out of the non-shared
part of `base` with `..` and then descend into `target`. -/
def relpathPosix (target base : List Char) : List Char :=
  let t := pathParts target
  let b := pathParts base
  let n := commonLen t b
  let ups := List.replicate (b.length - n) "..".data
  let rest := t.drop n
  if ups ++ rest = [] then ".".data else List.intercalate ['/'] (ups ++ rest)

/-- Relative subtitle-playlist reference used in the master playlist
(lines 564-571): relativize absolute paths against the output directory,
then normalize separators to forward slashes. -/
def relSubPath (outputDir p : List Char) : List Char :=
  replChar '\\' '/' (if isAbs p then relpathPosix p outputDir else p)

/-- The `lang_names` display-name table (lines 574-578), defaulting to the
upper-cased code (line 579). -/
def langDisplayName (code : List Char) : List Char :=
  let table : List (List Char × List Char) :=
    [("en".data, "English".data), ("es".data, "Spanish".data),
     ("fr".data, "French".data), ("de".data, "German".data),
     ("it".data, "Italian".data), ("pt".data, "Portuguese".data),
     ("ru".data, "Russian".data), ("ja".data, "Japanese".data),
     ("ko".data, "Korean".data), ("zh".data, "Chinese".data),
     ("ar".data, "Arabic".data), ("hi".data, "Hindi".data)]
  match table.lookup code with
  | some n => n
  | none => code.map Char.toUpper

/-- One `#EXT-X-MEDIA` subtitle line (lines 581-590); `isFirst` is
`list(subtitle_paths.keys()).index(lang_code) == 0`. -/
def mediaLine (outputDir : List Char) (langCode pathStr : List Char)
    (isFirst : Bool) : List Char :=
  "#EXT-X-MEDIA:TYPE=SUBTITLES,GROUP-ID=\"subtitles\",NAME=\"".data ++
    langDisplayName langCode ++ "\",LANGUAGE=\"".data ++ langCode ++
    "\",DEFAULT=".data ++ (if isFirst then "YES".data else "NO".data) ++
    ",AUTOSELECT=".data ++ (if isFirst then "YES".data else "NO".data) ++
    ",FORCED=NO,URI=\"".data ++ relSubPath outputDir pathStr ++ "\"".data

/-- Python truthiness of the `subtitle_paths` argument combined with the
`len(subtitle_paths) > 0` check (lines 561 and 601): the dict is modelled
as an insertion-ordered association list. -/
def subsNonempty (subs : Option (List (List Char × List Char))) : Bool :=
  match subs with
  | none => false
  | some d => !d.isEmpty

/-- The stream entry built by lines 600-603: the `#EXT-X-STREAM-INF` line
with an optional `SUBTITLES` attribute, with the URI appended after an
embedded newline (`stream_line += f'\n{q}/index.m3u8'`). -/
def streamRow (q : Quality) (audioExists : Bool)
    (subs : Option (List (List Char × List Char))) : List Char :=
  streamInfLine q audioExists ++
    (if subsNonempty subs then ",SUBTITLES=\"subtitles\"".data else []) ++
    '\n' :: uriLine q

/-- The `lines` list accumulated by `add_master_playlist_with_subtitles`
(lines 558-605). -/
def masterLinesWithSubtitles (outputDir : List Char) (selected : List Quality)
    (audioExists : Bool) (subs : Option (List (List Char × List Char))) :
    List (List Char) :=
  ["#EXTM3U".data, "#EXT-X-VERSION:3".data] ++
    (if subsNonempty subs then
      (subs.getD []).map fun entry =>
        mediaLine outputDir entry.1 entry.2
          (((subs.getD []).map Prod.fst).indexOf entry.1 = 0)
    else []) ++
    selected.map fun q => streamRow q audioExists subs

/-- The bytes `add_master_playlist_with_subtitles` writes to `master.m3u8`
(lines 607-609). -/
def masterContentWithSubtitles (outputDir : List Char) (selected : List Quality)
    (audioExists : Bool) (subs : Option (List (List Char × List Char))) :
    List Char :=
  joinNl (masterLinesWithSubtitles outputDir selected audioExists subs) ++ ['\n']

/-! ### Folder-name sanitization (`sanitize_folder_name`, lines 190-205) -/

/-- Python `str.strip()` whitespace set (the common ASCII cases). -/
def isPyWs (c : Char) : Bool :=
  c = ' ' || c = '\t' || c = '\n' || c = '\r' || c = '\x0b' || c = '\x0c'

/-- Python `s.strip()`. -/
def stripWs (s : List Char) : List Char :=
  ((s.dropWhile isPyWs).reverse.dropWhile isPyWs).reverse

/-- Python `s.strip("_")`. -/
def stripUnd (s : List Char) : List Char :=
  ((s.dropWhile fun c => c = '_').reverse.dropWhile fun c => c = '_').reverse

/-- Python `"__" in s`. -/
def hasDoubleUnd : List Char → Bool
  | '_' :: '_' :: _ => true
  | _ :: rest => hasDoubleUnd rest
  | [] => false

/-- One pass of Python `s.replace("__", "_")` (left-to-right,
non-overlapping). -/
def replaceDoubleUnd : List Char → List Char
  | '_' :: '_' :: rest => '_' :: replaceDoubleUnd rest
  | c :: rest => c :: replaceDoubleUnd rest
  | [] => []

/-- The `while "__" in s: s = s.replace("__", "_")` loop (lines 199-201),
fuel-driven: each iteration strictly shrinks the string, so `length + 1`
iterations always reach the fixpoint. -/
def collapseUndGo : Nat → List Char → List Char
  | 0, s => s
  | fuel + 1, s =>
    if hasDoubleUnd s then collapseUndGo fuel (replaceDoubleUnd s) else s

def collapseUnd (s : List Char) : List Char := collapseUndGo (s.length + 1) s

/-- The characters removed on line 203. -/
def FORBIDDEN : List Char := ['\\', '/', ':', '*', '?', '"', '<', '>', '|']

/-- The `for ch in (...): s = s.replace(ch, "_")` loop (lines 202-204). -/
def replaceForbidden (s : List Char) : List Char :=
  FORBIDDEN.foldl (fun acc ch => replChar ch '_' acc) s

/-- `sanitize_folder_name` (lines 190-205). -/
def sanitize_folder_name (name : List Char) : List Char :=
  if name = [] then name
  else
    let s0 := replChar ' ' '_' (stripWs name)
    let s1 := collapseUnd s0
    let s2 := replaceForbidden s1
    if stripUnd s2 = [] then stripWs name else stripUnd s2

/-! ### Caption timestamps (`format_srt_time` / `format_vtt_time`,
lines 243-267).  Python float arithmetic is modelled exactly over `ℚ`. -/

/-- Python `int()`: truncation toward zero. -/
def pyInt (q : ℚ) : ℤ := if q < 0 then -(Rat.floor (-q)) else Rat.floor q

/-- Python `x % y` on floats: `x - y*⌊x/y⌋` (result has the sign of `y`). -/
def pymod (x y : ℚ) : ℚ := x - y * Rat.floor (x / y)

/-- Python `round()` to an integer: round half to even. -/
def pyRound (x : ℚ) : ℤ :=
  let f := Rat.floor x
  let r := x - f
  if r < 1/2 then f
  else if 1/2 < r then f + 1
  else if f % 2 = 0 then f else f + 1

/-- The milliseconds field of `format_srt_time` (line 258):
`min(round((seconds % 1) * 1000), 999)`. -/
def srtMillis (s : ℚ) : ℤ := min (pyRound (pymod s 1 * 1000)) 999

/-- `format_srt_time` (lines 243-259): `HH:MM:SS,mmm`. -/
def format_srt_time (s : ℚ) : List Char :=
  let hours := Rat.floor (s / 3600)
  let minutes := Rat.floor (pymod s 3600 / 60)
  let secs := pyInt (pymod s 60)
  padInt 2 hours ++ ':' :: padInt 2 minutes ++ ':' :: padInt 2 secs ++
    ',' :: padInt 3 (srtMillis s)

/-- `format_vtt_time` (lines 261-267): the SRT string with `","`
replaced by `"."`. -/
def format_vtt_time (s : ℚ) : List Char :=
  replChar ',' '.' (format_srt_time s)

/-! ### Encoding progress (`_render_single_quality`, lines 1594-1661,
and `_render_worker` line 1719) -/

/-- `total_s = max(float(self.duration_s), 0.001)` (line 1719): the
denominator floored at 1/1000. -/
def totalSOf (duration : ℚ) : ℚ := max duration (1/1000)

/-- `clamp(x, lo, hi)` as used in the specification. -/
def clampQ (x lo hi : ℚ) : ℚ := min (max x lo) hi

/-- The per-quality percent computed on line 1609:
`min(max((cur_s / total_s) * 100.0, 0.0), 100.0)`. -/
def percentOf (total elapsed : ℚ) : ℚ :=
  min (max (elapsed / total * 100) 0) 100

/-- The progress values propagated by the wait loop (lines 1594-1612):
starting from `last_percent = 0`, a parsed elapsed time is emitted only
when its percent has advanced by at least 0.2 points. -/
def emitAll (total : ℚ) : List ℚ → ℚ → List ℚ
  | [], _ => []
  | e :: es, last =>
    let percent := percentOf total e
    if last + 1/5 ≤ percent then percent :: emitAll total es percent
    else emitAll total es last

/-- All updates of one successful encode: the coalesced updates followed
by the forced `100.0` on clean process exit (line 1660). -/
def emittedWithFinal (total : ℚ) (elapsedSeq : List ℚ) : List ℚ :=
  emitAll total elapsedSeq 0 ++ [100]

/-! ### Presigned-URL retry (`s3_uploader.py`,
`get_presigned_url_exact`, lines 73-105) -/

def RETRY_DELAYS : List Nat := [1, 3, 10]

def MAX_RETRIES : Nat := 3

/-- Outcome of one POST to the presign endpoint, as seen by the
`try` body of lines 85-100. -/
inductive PresignResponse where
  /-- 2xx with truthy `status`/`success` and a `data` payload: returned. -/
  | ok (data : List Char)
  /-- Status 401/403: `PermissionError` raised (line 93). -/
  | authFail (code : Nat)
  /-- Network error or non-2xx: `requests.exceptions.RequestException`. -/
  | transient
  /-- 2xx but falsy status or missing data: `ValueError` (line 99). -/
  | invalid
deriving DecidableEq

/-- The exception type escaping `get_presigned_url_exact`. -/
inductive PresignError where
  | permission (code : Nat)
  | network
  | invalidResponse
deriving DecidableEq

/-- Which error the `except` clause on line 101 re-raises for each
failing response. -/
def errOf : PresignResponse → PresignError
  | .authFail c => .permission c
  | .invalid => .invalidResponse
  | _ => .network

/-- What a full `get_presigned_url_exact` call does in the end: return
the presigned data, or raise. -/
inductive PresignOutcome where
  | returned (data : List Char)
  | raised (e : PresignError)
deriving DecidableEq

/-- Result of a full `get_presigned_url_exact` call: the returned data or
raised error, the `time.sleep` delays performed, and how many attempts
(POSTs) were made. -/
structure PresignRun where
  outcome : PresignOutcome
  slept : List Nat
  attempts : Nat
deriving DecidableEq

/-- The `for attempt in range(MAX_RETRIES)` loop of lines 84-104: every
caught exception — including `PermissionError` — is retried after
`RETRY_DELAYS[attempt]` unless this was the last attempt. -/
def presignLoop (responses : Nat → PresignResponse) :
    List Nat → List Nat → PresignRun
  | [], slept => ⟨.raised .network, slept, MAX_RETRIES⟩
  | attempt :: rest, slept =>
    match responses attempt with
    | .ok d => ⟨.returned d, slept, attempt + 1⟩
    | r =>
      if attempt = MAX_RETRIES - 1 then ⟨.raised (errOf r), slept, attempt + 1⟩
      else presignLoop responses rest (slept ++ [RETRY_DELAYS.getD attempt 0])

/-- `get_presigned_url_exact`, with the backend's response to the n-th
attempt given by `responses n`. -/
def getPresignedUrlExact (responses : Nat → PresignResponse) : PresignRun :=
  presignLoop responses (List.range MAX_RETRIES) []

/-! ### Directory upload (`upload_directory`, lines 143-186) -/

/-- `s3_prefix.rstrip("/")` (line 162). -/
def rstripSlash (s : List Char) : List Char :=
  (s.reverse.dropWhile fun c => c = '/').reverse

/-- The destination key for one file (line 174):
`f"{prefix}/{'/'.join(parts)}".replace("\\", "/")`, where `parts` are the
path components of the file relative to the uploaded directory. -/
def uploadKey (pfx : List Char) (relParts : List (List Char)) : List Char :=
  replChar '\\' '/' (rstripSlash pfx ++ '/' :: List.intercalate ['/'] relParts)

/-- Result of `upload_directory`: a normal return or a raised exception. -/
inductive UploadResult where
  | ok (pairs : List (List Char × List Char))
  | raised (msg : List Char)
deriving DecidableEq

/-- The upload loop of lines 169-185.  `files` is the walked file list in
`rglob` order, as `(local path, relative components)`. `cancel i` is the
value of `cancel_check()` observed before the file with `i` transfers
already completed; `transferOk i` tells whether the presign + PUT of file
`i` succeed (a failure raises out of the function). -/
def uploadLoop (pfx : List Char) (transferOk : Nat → Bool) (cancel : Nat → Bool) :
    List (List Char × List (List Char)) → Nat →
    List (List Char × List Char) → UploadResult
  | [], _, acc => .ok acc
  | f :: rest, i, acc =>
    if cancel i then .ok acc
    else if transferOk i then
      uploadLoop pfx transferOk cancel rest (i + 1) (acc ++ [(f.1, uploadKey pfx f.2)])
    else .raised "transfer failed".data

/-- `upload_directory` over an already-walked file list. -/
def uploadDirectory (pfx : List Char) (files : List (List Char × List (List Char)))
    (transferOk : Nat → Bool) (cancel : Nat → Bool) : UploadResult :=
  uploadLoop pfx transferOk cancel files 0 []

/-! ### Per-file queue processing (`_render_worker`, lines 1663-2026).

One iteration of the queue loop is modelled as a function from an
environment record — describing the outcome of every external interaction
of that iteration — to the `file_result` record appended to the queue
results, together with the relevant on-disk state. -/

/-- Outcome of `_render_single_quality` for one quality (lines 1527-1661). -/
inductive EncodeOutcome where
  /-- Process exited 0: `(True, None)`. -/
  | ok
  /-- Startup failure or non-zero exit: `(False, err)` with a message. -/
  | fail (msg : List Char)
  /-- Watchdog kill after a 30s stall: `(False, None)` (line 1645). -/
  | stuck
deriving DecidableEq

/-- Environment of the transcription stage (lines 1769-1835). -/
structure TransStageEnv where
  /-- `extract_audio_from_video` returned success (line 1776). -/
  extractOk : Bool
  /-- Whether the external encoder left a (possibly partial) file at the
  temp-audio path when extraction failed — `ffmpeg -y` creates its output
  file before transcoding, so a mid-run failure leaves one behind. -/
  extractLeavesFile : Bool
  /-- The `error_msg` of a failed extraction. -/
  extractErrMsg : List Char
  /-- `transcribe_audio_with_whisper` returned success (line 1780). -/
  transOk : Bool
  /-- The `trans_error` of a failed transcription. -/
  transErrMsg : List Char
  /-- The written VTT/SRT subtitle file exists (line 1800). -/
  vttPresent : Bool
  /-- `create_subtitle_playlist` succeeded (line 1802). -/
  subtitlePlaylistOk : Bool
  /-- The exception text of a failed subtitle-playlist creation. -/
  subErrMsg : List Char

/-- Outcome of the S3 phase when enabled (lines 1879-1990). -/
inductive S3Outcome where
  /-- Upload and file-record creation succeeded. -/
  | ok
  /-- `cancel_check` fired: partial upload, `"Upload cancelled"`. -/
  | cancelled
  /-- Any exception in upload or record creation (line 1975). -/
  | failed (msg : List Char)

/-- Environment of one `_render_worker` iteration. -/
structure WorkerEnv where
  /-- `os.path.isfile(fp)` (line 1687). -/
  fileExists : Bool
  /-- The transcription checkbox (line 1769). -/
  transcribeEnabled : Bool
  /-- `has_audio_stream(fp)` (line 1708). -/
  audioExists : Bool
  /-- Per-quality encoder outcome (line 1724). -/
  encode : Quality → EncodeOutcome
  /-- `add_master_playlist` write succeeded (line 1748). -/
  masterWriteOk : Bool
  /-- Whether a failed initial master write left a (truncated) file. -/
  masterFailLeavesFile : Bool
  trans : TransStageEnv
  /-- `add_master_playlist_with_subtitles` rewrite succeeded (line 1844). -/
  rebuildMasterOk : Bool
  /-- The exception text of a failed master rewrite. -/
  rebuildErrMsg : List Char
  /-- The S3 checkbox together with a configured backend (line 1879). -/
  s3Enabled : Bool
  s3Outcome : S3Outcome
  /-- The delete-local-after-upload checkbox (line 1970). -/
  s3DeleteLocal : Bool

/-- The fields of `file_result` (lines 1673-1683) relevant to the claims. -/
structure FileResult where
  status : List Char
  error : Option (List Char)
  master_path : Option (List Char)
  transcript_error : Option (List Char)
  /-- `subtitle_playlist_path` was set (line 1807). -/
  subtitlePlaylist : Bool
deriving DecidableEq

/-- On-disk state at the end of the iteration. -/
structure DiskState where
  /-- A file exists at `{output_dir}/master.m3u8`. -/
  masterOnDisk : Bool
  /-- A file exists at the `_temp_audio.wav` path. -/
  tempAudioOnDisk : Bool
deriving DecidableEq

/-- Intermediate state of the transcription stage. -/
structure TransOut where
  transcript_error : Option (List Char)
  subtitlePlaylist : Bool
  transSuccess : Bool
  tempAudioOnDisk : Bool

/-- The transcription stage (lines 1769-1835): extraction failure,
transcription failure and subtitle-playlist failure all land in
`transcript_error`; the temp-audio cleanup (lines 1823-1828) runs only
inside the `if success:` branch of the extraction. -/
def transStage (t : TransStageEnv) : TransOut :=
  if t.extractOk then
    if t.transOk then
      if t.vttPresent then
        if t.subtitlePlaylistOk then ⟨none, true, true, false⟩
        else
          ⟨some ("Subtitle playlist creation failed: ".data ++ t.subErrMsg),
            false, true, false⟩
      else
        ⟨some "Subtitle file (VTT/SRT) not found after transcription".data,
          false, true, false⟩
    else ⟨some t.transErrMsg, false, false, false⟩
  else
    ⟨some ("Audio extraction failed: ".data ++ t.extractErrMsg),
      false, false, t.extractLeavesFile⟩

/-- The quality loop of lines 1722-1731: the first failing quality sets
`render_error` (the stuck case maps to `"Rendering {q} was interrupted"`,
line 1728) and breaks; `none` when every selected quality encodes. -/
def firstEncodeError (enc : Quality → EncodeOutcome) : List Quality → Option (List Char)
  | [] => none
  | q :: rest =>
    match enc q with
    | .ok => firstEncodeError enc rest
    | .fail m => some m
    | .stuck => some ("Rendering ".data ++ q.name ++ " was interrupted".data)

/-- One iteration of the `_render_worker` queue loop (lines 1672-2004)
for the file at hand, producing the `file_result` that is appended to
`queue_results` and the resulting on-disk state. -/
def processFile (selected : List Quality) (outputDir : List Char)
    (env : WorkerEnv) : FileResult × DiskState :=
  if ¬ env.fileExists then
    (⟨"failed".data, some "file missing".data, none, none, false⟩, ⟨false, false⟩)
  else
    match firstEncodeError env.encode selected with
    | some msg =>
      (⟨"failed".data, some msg, none, none, false⟩, ⟨false, false⟩)
    | none =>
      if ¬ env.masterWriteOk then
        (⟨"failed".data, some "Master playlist write failed".data, none, none, false⟩,
          ⟨env.masterFailLeavesFile, false⟩)
      else
        let masterPath := outputDir ++ '/' :: "master.m3u8".data
        let tOut :=
          if env.transcribeEnabled && env.audioExists then transStage env.trans
          else (⟨none, false, false, false⟩ : TransOut)
        -- master rebuild with subtitles (lines 1837-1855): only when the
        -- subtitle playlist exists and transcription succeeded; a rewrite
        -- failure is recorded in transcript_error unless one is set.
        let transcriptError :=
          if tOut.subtitlePlaylist && tOut.transSuccess && ¬ env.rebuildMasterOk then
            match tOut.transcript_error with
            | some e => some e
            | none =>
              some ("Failed to add subtitles to master playlist: ".data ++
                env.rebuildErrMsg)
          else tOut.transcript_error
        -- line 1858: status becomes "success" unconditionally here.
        let base : FileResult :=
          ⟨"success".data, none, some masterPath, transcriptError,
            tOut.subtitlePlaylist⟩
        if env.s3Enabled then
          match env.s3Outcome with
          | .cancelled =>
            ({ base with error := some "Upload cancelled".data },
              ⟨true, tOut.tempAudioOnDisk⟩)
          | .failed m =>
            ({ base with error := some ("S3/File record: ".data ++ m) },
              ⟨true, tOut.tempAudioOnDisk⟩)
          | .ok =>
            if env.s3DeleteLocal then (base, ⟨false, false⟩)
            else (base, ⟨true, tOut.tempAudioOnDisk⟩)
        else (base, ⟨true, tOut.tempAudioOnDisk⟩)

/-- A concrete environment: everything up to the master playlist succeeds,
transcription is enabled with audio present, and the audio extraction
fails leaving a partial temp file; no upload. -/
def envExtractFail : WorkerEnv where
  fileExists := true
  transcribeEnabled := true
  audioExists := true
  encode := fun _ => .ok
  masterWriteOk := true
  masterFailLeavesFile := false
  trans :=
    { extractOk := false, extractLeavesFile := true,
      extractErrMsg := "boom".data, transOk := false, transErrMsg := [],
      vttPresent := false, subtitlePlaylistOk := false, subErrMsg := [] }
  rebuildMasterOk := true
  rebuildErrMsg := []
  s3Enabled := false
  s3Outcome := .ok
  s3DeleteLocal := false

/-- A concrete environment like `envExtractFail` but where the extraction
succeeds and the transcription itself fails. -/
def envExtractOk : WorkerEnv where
  fileExists := true
  transcribeEnabled := true
  audioExists := true
  encode := fun _ => .ok
  masterWriteOk := true
  masterFailLeavesFile := false
  trans :=
    { extractOk := true, extractLeavesFile := false, extractErrMsg := [],
      transOk := false, transErrMsg := "whisper failed".data,
      vttPresent := false, subtitlePlaylistOk := false, subErrMsg := [] }
  rebuildMasterOk := true
  rebuildErrMsg := []
  s3Enabled := false
  s3Outcome := .ok
  s3DeleteLocal := false

/-! ## Theorems for the claims -/

/-- Claim C3: for every duration `d > 0` (and the orchestrator floors the
denominator at `0.001` for a zero probed duration) and every parsed
elapsed time `e`, the per-quality progress percent of line 1609 equals
`clamp(100·e/d, 0, 100)`; it is `0` when `e ≤ 0` and `100` when `e ≥ d`. -/
theorem percent_is_clamped (d e : ℚ) (hd : 0 < d) :
    percentOf d e = clampQ (100 * e / d) 0 100 ∧
      (e ≤ 0 → percentOf d e = 0) ∧
      (d ≤ e → percentOf d e = 100) ∧
      totalSOf 0 = 1/1000 ∧ 0 < totalSOf 0 := by
  refine ⟨?_, ?_, ?_, by norm_num [totalSOf], by norm_num [totalSOf]⟩
  · unfold percentOf clampQ
    ring_nf
  · intro he
    have h1 : e / d ≤ 0 := div_nonpos_iff.mpr (Or.inr ⟨he, hd.le⟩)
    have h2 : e / d * 100 ≤ 0 := by nlinarith
    unfold percentOf
    rw [max_eq_right h2, min_eq_left (by norm_num : (0:ℚ) ≤ 100)]
  · intro hde
    have h1 : (1:ℚ) ≤ e / d := (one_le_div hd).mpr hde
    have h2 : (100:ℚ) ≤ e / d * 100 := by nlinarith
    unfold percentOf
    rw [max_eq_left (by linarith), min_eq_right h2]

/-- Witness for `percent_is_clamped` at `d = 2`, `e = 3`. -/
theorem percent_is_clamped_witness :
    (0:ℚ) < 2 ∧
      (percentOf 2 3 = clampQ (100 * 3 / 2) 0 100 ∧
        ((3:ℚ) ≤ 0 → percentOf 2 3 = 0) ∧
        ((2:ℚ) ≤ 3 → percentOf 2 3 = 100) ∧
        totalSOf 0 = 1/1000 ∧ 0 < totalSOf 0) :=
  ⟨by norm_num, percent_is_clamped 2 3 (by norm_num)⟩

/-- Claim C2 counterexample: a presign call whose first response is 403 is
retried, not raised immediately — with responses (403, success) the call
makes two attempts and returns the data, contradicting "exactly one
attempt, raising the authorization error immediately". -/
theorem presign_auth_retried :
    getPresignedUrlExact
        (fun n => if n = 0 then .authFail 403 else .ok "signed".data) =
      ⟨.returned "signed".data, [1], 2⟩ ∧
    (getPresignedUrlExact
        (fun n => if n = 0 then .authFail 403 else .ok "signed".data)).attempts ≠ 1 := by
  constructor
  · rfl
  · decide

/-- Claim C2 (amended): `get_presigned_url_exact` makes at most 3 attempts
with backoff delays drawn from the 1s/3s/10s schedule between failed
attempts, and a call that fails twice with a transient error succeeds on
the 3rd attempt; but a 401/403 answer is caught by the same retry loop as
the transient errors (line 101 lists `PermissionError` in the `except`
tuple), so the authorization error is raised only after the full 3
attempts when it persists. -/
theorem presign_retry_schedule (responses : Nat → PresignResponse)
    (d : List Char) (c : Nat) :
    ((getPresignedUrlExact responses).attempts ≤ 3 ∧
      1 ≤ (getPresignedUrlExact responses).attempts ∧
      (getPresignedUrlExact responses).slept =
        RETRY_DELAYS.take ((getPresignedUrlExact responses).attempts - 1)) ∧
    getPresignedUrlExact (fun n => if n < 2 then .transient else .ok d) =
      ⟨.returned d, [1, 3], 3⟩ ∧
    getPresignedUrlExact (fun _ => .authFail c) =
      ⟨.raised (.permission c), [1, 3], 3⟩ := by
  refine ⟨?_, rfl, rfl⟩
  have hr : List.range MAX_RETRIES = [0, 1, 2] := rfl
  rcases h0 : responses 0 with d0 | c0 | _ | _ <;>
    rcases h1 : responses 1 with d1 | c1 | _ | _ <;>
      rcases h2 : responses 2 with d2 | c2 | _ | _ <;>
        simp [getPresignedUrlExact, hr, presignLoop, h0, h1, h2,
          MAX_RETRIES, RETRY_DELAYS]

/-- Claim C7 counterexample: `add_master_playlist` emits the stream
entries in the order its argument lists them — called with
`["480p", "1080p"]` the 480p entry precedes the 1080p entry, so the
output does not list 1080p first regardless of input order. -/
theorem master_order_follows_input :
    (masterLines [.q480, .q1080] true).indexOf (streamInfLine .q480 true) <
      (masterLines [.q480, .q1080] true).indexOf (streamInfLine .q1080 true) := by
  decide

/-- Claim C7 (amended): `add_master_playlist` writes the stream entries in
its argument order; the fixed descending-resolution order comes from the
caller, which builds the selection by filtering `QUALITY_ORDER`
(`on_start`, line 1267).  Hence whenever 1080p and 480p are both checked,
the written master playlist lists the 1080p entry before the 480p entry,
whatever the other checkboxes and the audio flag. -/
theorem master_order_descending (b720 b360 audioExists : Bool) :
    (masterLines (onStartSelected true b720 true b360) audioExists).indexOf
        (streamInfLine .q1080 audioExists) <
      (masterLines (onStartSelected true b720 true b360) audioExists).indexOf
        (streamInfLine .q480 audioExists) := by
  cases b720 <;> cases b360 <;> cases audioExists <;> decide

lemma streamRow_no_subs (q : Quality) (audioExists : Bool)
    (subs : Option (List (List Char × List Char)))
    (hs : subsNonempty subs = false) :
    streamRow q audioExists subs =
      streamInfLine q audioExists ++ '\n' :: uriLine q := by
  simp [streamRow, hs]

lemma joinNl_row_merge (audioExists : Bool)
    (subs : Option (List (List Char × List Char)))
    (hs : subsNonempty subs = false) :
    ∀ selected : List Quality,
      joinNl (selected.map fun q => streamRow q audioExists subs) =
        joinNl (selected.flatMap fun q =>
          [streamInfLine q audioExists, uriLine q])
  | [] => rfl
  | [q] => by
    simp [joinNl, streamRow_no_subs q audioExists subs hs]
  | q :: r :: rest => by
    have ih := joinNl_row_merge audioExists subs hs (r :: rest)
    have h1 : joinNl ((q :: r :: rest).map fun x => streamRow x audioExists subs) =
        streamRow q audioExists subs ++
          '\n' :: joinNl ((r :: rest).map fun x => streamRow x audioExists subs) := rfl
    have h2 : joinNl ((q :: r :: rest).flatMap fun x =>
          [streamInfLine x audioExists, uriLine x]) =
        streamInfLine q audioExists ++
          '\n' :: (uriLine q ++
            '\n' :: joinNl ((r :: rest).flatMap fun x =>
              [streamInfLine x audioExists, uriLine x])) := rfl
    rw [h1, h2, ih, streamRow_no_subs q audioExists subs hs]
    simp [List.cons_append, List.append_assoc]

/-- Claim C10: calling `add_master_playlist_with_subtitles` with no
subtitle paths (`None` or an empty dict) writes a `master.m3u8` whose
bytes are identical to the output of `add_master_playlist` with the same
arguments. -/
theorem master_with_subtitles_refines (outputDir : List Char)
    (selected : List Quality) (audioExists : Bool) :
    masterContentWithSubtitles outputDir selected audioExists none =
        masterContent selected audioExists ∧
      masterContentWithSubtitles outputDir selected audioExists (some []) =
        masterContent selected audioExists := by
  have key : ∀ subs : Option (List (List Char × List Char)),
      subsNonempty subs = false →
      masterContentWithSubtitles outputDir selected audioExists subs =
        masterContent selected audioExists := by
    intro subs hs
    unfold masterContentWithSubtitles masterContent masterLinesWithSubtitles
      masterLines
    rw [hs]
    cases selected with
    | nil => simp [joinNl]
    | cons q rest =>
      have := joinNl_row_merge audioExists subs hs (q :: rest)
      simp only [Bool.false_eq_true, if_false, List.nil_append]
      cases rest with
      | nil =>
        simp only [joinNl, List.map_cons, List.map_nil, List.flatMap_cons,
          List.flatMap_nil, List.cons_append, List.nil_append,
          List.append_nil] at this ⊢
        rw [this]
      | cons r rest2 =>
        simp only [joinNl, List.map_cons, List.flatMap_cons,
          List.cons_append, List.nil_append] at this ⊢
        rw [this]
  exact ⟨key none rfl, key (some []) rfl⟩

lemma uploadLoop_take (pfx : List Char) (transferOk : Nat → Bool) (k : Nat)
    (hok : ∀ j, j < k → transferOk j = true) :
    ∀ (files : List (List Char × List (List Char))) (i : Nat)
      (acc : List (List Char × List Char)),
      uploadLoop pfx transferOk (fun n => decide (k ≤ n)) files i acc =
        .ok (acc ++ (files.take (k - i)).map fun f =>
          (f.1, uploadKey pfx f.2)) := by
  intro files
  induction files with
  | nil => intro i acc; simp [uploadLoop]
  | cons f rest ih =>
    intro i acc
    by_cases hik : k ≤ i
    · have h0 : k - i = 0 := by omega
      simp [uploadLoop, hik, h0]
    · have htr := hok i (by omega)
      have hk2 : k - i = (k - (i + 1)) + 1 := by omega
      rw [uploadLoop]
      rw [if_neg (by simp [hik]), if_pos htr]
      rw [ih (i + 1) (acc ++ [(f.1, uploadKey pfx f.2)])]
      rw [hk2, List.take_succ_cons, List.map_cons]
      simp

/-- Claim C5: for a walked directory of `N` files and a cancellation
signal that first fires after the `k`-th transfer completes
(`0 ≤ k ≤ N`), `upload_directory` returns — as a normal return, not an
exception — exactly the first `k` `(local path, remote key)` pairs in
walked order. -/
theorem upload_cancel_partial (pfx : List Char)
    (files : List (List Char × List (List Char))) (k : Nat)
    (transferOk : Nat → Bool) (hk : k ≤ files.length)
    (hok : ∀ j, j < k → transferOk j = true) :
    uploadDirectory pfx files transferOk (fun n => decide (k ≤ n)) =
      .ok ((files.take k).map fun f => (f.1, uploadKey pfx f.2)) := by
  have h := uploadLoop_take pfx transferOk k hok files 0 []
  simpa [uploadDirectory] using h

/-- Witness for `upload_cancel_partial`: three files, cancellation after
the second. -/
theorem upload_cancel_partial_witness :
    ((2 ≤ ([("a".data, ["a".data]), ("b".data, ["b".data]),
        ("c".data, ["c".data])] :
        List (List Char × List (List Char))).length) ∧
      (∀ j, j < 2 → (fun _ => true : Nat → Bool) j = true)) ∧
    uploadDirectory "pre".data
        [("a".data, ["a".data]), ("b".data, ["b".data]), ("c".data, ["c".data])]
        (fun _ => true) (fun n => decide (2 ≤ n)) =
      .ok ((([("a".data, ["a".data]), ("b".data, ["b".data]),
          ("c".data, ["c".data])] :
          List (List Char × List (List Char))).take 2).map fun f =>
        (f.1, uploadKey "pre".data f.2)) :=
  ⟨⟨by decide, fun j hj => rfl⟩,
    upload_cancel_partial "pre".data
      [("a".data, ["a".data]), ("b".data, ["b".data]), ("c".data, ["c".data])]
      2 (fun _ => true) (by decide) (fun j hj => rfl)⟩

lemma percentOf_le_100 (total e : ℚ) : percentOf total e ≤ 100 :=
  min_le_right _ _

lemma emitAll_bounds (total : ℚ) :
    ∀ (es : List ℚ) (last : ℚ),
      (∀ x ∈ emitAll total es last, last + 1/5 ≤ x ∧ x ≤ 100) ∧
      List.Chain' (fun a b => a + 1/5 ≤ b) (emitAll total es last) := by
  intro es
  induction es with
  | nil => intro last; simp [emitAll]
  | cons e rest ih =>
    intro last
    rw [emitAll]
    by_cases h : last + 1/5 ≤ percentOf total e
    · rw [if_pos h]
      obtain ⟨ihmem, ihchain⟩ := ih (percentOf total e)
      refine ⟨?_, ?_⟩
      · intro x hx
        rcases List.mem_cons.mp hx with rfl | hx'
        · exact ⟨h, percentOf_le_100 total e⟩
        · have hm := ihmem x hx'
          exact ⟨by linarith [hm.1], hm.2⟩
      · rw [List.chain'_cons']
        refine ⟨?_, ihchain⟩
        intro y hy
        cases htail : emitAll total rest (percentOf total e) with
        | nil => rw [htail] at hy; simp at hy
        | cons a t =>
          rw [htail] at hy
          simp only [List.head?_cons, Option.mem_def, Option.some.injEq] at hy
          have ha := (ihmem a (by rw [htail]; exact List.mem_cons_self _ _)).1
          rw [← hy]
          exact ha
    · rw [if_neg h]
      exact ih last

/-- Claim C4: over a monotone sequence of elapsed times from one encode,
the emitted percentages (coalesced on line 1610, with the forced final
`100.0` of line 1660) are non-decreasing, and any two consecutive
coalesced values differ by at least 0.2 percentage points — only the
final forced 100 may repeat or advance by less. -/
theorem progress_updates_coalesced (total : ℚ) (es : List ℚ)
    (hmono : List.Chain' (· ≤ ·) es) :
    List.Chain' (· ≤ ·) (emittedWithFinal total es) ∧
      List.Chain' (fun a b => a + 1/5 ≤ b) (emitAll total es 0) := by
  obtain ⟨hmem, hchain⟩ := emitAll_bounds total es 0
  refine ⟨?_, hchain⟩
  unfold emittedWithFinal
  rw [List.chain'_append]
  refine ⟨hchain.imp fun a b hab => by linarith, List.chain'_singleton _, ?_⟩
  intro x hx y hy
  simp only [List.head?_cons, Option.mem_def, Option.some.injEq] at hy
  subst hy
  obtain ⟨hne, hxl⟩ := List.mem_getLast?_eq_getLast hx
  exact hxl ▸ (hmem _ (List.getLast_mem hne)).2

/-- Witness for `progress_updates_coalesced`: elapsed times 1s, 2s, 50s of
a 100s encode. -/
theorem progress_updates_coalesced_witness :
    List.Chain' (· ≤ ·) [(1 : ℚ), 2, 50] ∧
      (List.Chain' (· ≤ ·) (emittedWithFinal 100 [(1 : ℚ), 2, 50]) ∧
        List.Chain' (fun a b => a + 1/5 ≤ b) (emitAll 100 [(1 : ℚ), 2, 50] 0)) :=
  ⟨by norm_num [List.chain'_cons, List.chain'_singleton],
    progress_updates_coalesced 100 [(1 : ℚ), 2, 50]
      (by norm_num [List.chain'_cons, List.chain'_singleton])⟩

lemma replChar_append (a b : Char) (l1 l2 : List Char) :
    replChar a b (l1 ++ l2) = replChar a b l1 ++ replChar a b l2 :=
  List.map_append _ l1 l2

lemma replChar_cons (a b c : Char) (l : List Char) :
    replChar a b (c :: l) = (if c = a then b else c) :: replChar a b l := rfl

lemma replChar_eq_self (a b : Char) :
    ∀ l : List Char, (∀ c ∈ l, c ≠ a) → replChar a b l = l := by
  intro l
  induction l with
  | nil => intro _; rfl
  | cons c t ih =>
    intro h
    rw [replChar_cons, if_neg (h c (List.mem_cons_self c t)),
      ih fun x hx => h x (List.mem_cons_of_mem c hx)]

lemma digitCh_ne_comma (d : Nat) : digitCh d ≠ ',' := by
  unfold digitCh
  split <;> decide

lemma mem_natCharsGo :
    ∀ (fuel n : Nat) (acc : List Char) (c : Char),
      c ∈ natCharsGo fuel n acc → (∃ d, c = digitCh d) ∨ c ∈ acc := by
  intro fuel
  induction fuel with
  | zero =>
    intro n acc c hc
    right
    simpa [natCharsGo] using hc
  | succ f ih =>
    intro n acc c hc
    rw [natCharsGo] at hc
    by_cases h : n < 10
    · rw [if_pos h] at hc
      rcases List.mem_cons.mp hc with rfl | h2
      · exact Or.inl ⟨n, rfl⟩
      · exact Or.inr h2
    · rw [if_neg h] at hc
      rcases ih (n / 10) _ c hc with h1 | h2
      · exact Or.inl h1
      · rcases List.mem_cons.mp h2 with rfl | h3
        · exact Or.inl ⟨n % 10, rfl⟩
        · exact Or.inr h3

lemma comma_not_mem_padInt (w : Nat) (n : Int) : ',' ∉ padInt w n := by
  intro hc
  have : (',' = '-' ∨ ',' = '0' ∨ ∃ d, ',' = digitCh d) := by
    simp only [padInt] at hc
    split at hc
    · rcases List.mem_cons.mp hc with h1 | h2
      · exact Or.inl h1
      · rcases List.mem_append.mp h2 with h3 | h4
        · exact Or.inr (Or.inl (List.eq_of_mem_replicate h3))
        · rcases mem_natCharsGo _ _ _ _ h4 with h5 | h6
          · exact Or.inr (Or.inr h5)
          · simp at h6
    · rcases List.mem_append.mp hc with h3 | h4
      · exact Or.inr (Or.inl (List.eq_of_mem_replicate h3))
      · rcases mem_natCharsGo _ _ _ _ h4 with h5 | h6
        · exact Or.inr (Or.inr h5)
        · simp at h6
  rcases this with h | h | ⟨d, h⟩
  · exact absurd h (by decide)
  · exact absurd h (by decide)
  · exact digitCh_ne_comma d h.symm

lemma replChar_padInt (w : Nat) (n : Int) :
    replChar ',' '.' (padInt w n) = padInt w n :=
  replChar_eq_self ',' '.' _ fun c hc hq => comma_not_mem_padInt w n (hq ▸ hc)

lemma ratFloor_eq (r : ℚ) (z : ℤ) (h1 : (z : ℚ) ≤ r) (h2 : r < z + 1) :
    Rat.floor r = z := by
  have ha : z ≤ Rat.floor r := Rat.le_floor.mpr h1
  have hb : ¬ (z + 1 ≤ Rat.floor r) := fun hc => by
    have := Rat.le_floor.mp hc
    push_cast at this
    linarith
  omega

lemma format_srt_time_eval (s : ℚ) (hh mm ss mil : ℤ)
    (h1 : Rat.floor (s / 3600) = hh) (h2 : Rat.floor (pymod s 3600 / 60) = mm)
    (h3 : pyInt (pymod s 60) = ss) (h4 : srtMillis s = mil) :
    format_srt_time s =
      padInt 2 hh ++ ':' :: padInt 2 mm ++ ':' :: padInt 2 ss ++
        ',' :: padInt 3 mil := by
  simp only [format_srt_time, h1, h2, h3, h4]

/-- Claim C6: `format_srt_time` renders `HH:MM:SS,mmm` with the
milliseconds field `round(frac(s)·1000)` (Python `round`: ties to even)
clamped to at most 999 — `23.4567 ↦ "00:00:23,457"` and `0.9996` gives
milliseconds 999, not 1000 or a rollover — and `format_vtt_time` yields
exactly the same string with `'.'` in place of `','`. -/
theorem caption_time_format (s : ℚ) (hs : 0 ≤ s) :
    (format_srt_time s =
      padInt 2 (Rat.floor (s / 3600)) ++ ':' ::
        padInt 2 (Rat.floor (pymod s 3600 / 60)) ++ ':' ::
        padInt 2 (pyInt (pymod s 60)) ++ ',' ::
        padInt 3 (min (pyRound ((s - Rat.floor s) * 1000)) 999)) ∧
      (format_vtt_time s =
        padInt 2 (Rat.floor (s / 3600)) ++ ':' ::
          padInt 2 (Rat.floor (pymod s 3600 / 60)) ++ ':' ::
          padInt 2 (pyInt (pymod s 60)) ++ '.' ::
          padInt 3 (min (pyRound ((s - Rat.floor s) * 1000)) 999)) ∧
      format_srt_time (234567/10000) = "00:00:23,457".data ∧
      format_vtt_time (234567/10000) = "00:00:23.457".data ∧
      format_srt_time (9996/10000) = "00:00:00,999".data ∧
      format_vtt_time (9996/10000) = "00:00:00.999".data := by
  have hfrac : pymod s 1 = s - Rat.floor s := by
    unfold pymod
    rw [div_one, one_mul]
  have hsrt : format_srt_time s =
      padInt 2 (Rat.floor (s / 3600)) ++ ':' ::
        padInt 2 (Rat.floor (pymod s 3600 / 60)) ++ ':' ::
        padInt 2 (pyInt (pymod s 60)) ++ ',' ::
        padInt 3 (min (pyRound ((s - Rat.floor s) * 1000)) 999) := by
    unfold format_srt_time srtMillis
    rw [hfrac]
  -- the example value 23.4567
  have f1 : Rat.floor ((234567/10000 : ℚ) / 3600) = 0 :=
    ratFloor_eq _ 0 (by norm_num) (by norm_num)
  have g1 : pymod (234567/10000 : ℚ) 3600 = 234567/10000 := by
    unfold pymod
    rw [f1]
    push_cast
    ring
  have f2 : Rat.floor (pymod (234567/10000 : ℚ) 3600 / 60) = 0 := by
    rw [g1]
    exact ratFloor_eq _ 0 (by norm_num) (by norm_num)
  have g2 : pymod (234567/10000 : ℚ) 60 = 234567/10000 := by
    unfold pymod
    rw [ratFloor_eq ((234567/10000 : ℚ) / 60) 0 (by norm_num) (by norm_num)]
    push_cast
    ring
  have f4 : pyInt (pymod (234567/10000 : ℚ) 60) = 23 := by
    rw [g2]
    unfold pyInt
    rw [if_neg (by norm_num)]
    exact ratFloor_eq _ 23 (by norm_num) (by norm_num)
  have g3 : pymod (234567/10000 : ℚ) 1 = 4567/10000 := by
    unfold pymod
    rw [div_one, ratFloor_eq (234567/10000 : ℚ) 23 (by norm_num) (by norm_num)]
    push_cast
    norm_num
  have f5 : srtMillis (234567/10000 : ℚ) = 457 := by
    unfold srtMillis
    rw [g3]
    have hv : (4567/10000 : ℚ) * 1000 = 4567/10 := by norm_num
    rw [hv]
    simp only [pyRound]
    rw [ratFloor_eq (4567/10 : ℚ) 456 (by norm_num) (by norm_num)]
    rw [if_neg (by push_cast; norm_num), if_pos (by push_cast; norm_num)]
    norm_num
  have e1 : format_srt_time (234567/10000 : ℚ) = "00:00:23,457".data :=
    (format_srt_time_eval _ 0 0 23 457 f1 f2 f4 f5).trans (by decide)
  have e2 : format_vtt_time (234567/10000 : ℚ) = "00:00:23.457".data := by
    unfold format_vtt_time
    rw [e1]
    decide
  -- the example value 0.9996
  have f1b : Rat.floor ((9996/10000 : ℚ) / 3600) = 0 :=
    ratFloor_eq _ 0 (by norm_num) (by norm_num)
  have g1b : pymod (9996/10000 : ℚ) 3600 = 9996/10000 := by
    unfold pymod
    rw [f1b]
    push_cast
    ring
  have f2b : Rat.floor (pymod (9996/10000 : ℚ) 3600 / 60) = 0 := by
    rw [g1b]
    exact ratFloor_eq _ 0 (by norm_num) (by norm_num)
  have g2b : pymod (9996/10000 : ℚ) 60 = 9996/10000 := by
    unfold pymod
    rw [ratFloor_eq ((9996/10000 : ℚ) / 60) 0 (by norm_num) (by norm_num)]
    push_cast
    ring
  have f4b : pyInt (pymod (9996/10000 : ℚ) 60) = 0 := by
    rw [g2b]
    unfold pyInt
    rw [if_neg (by norm_num)]
    exact ratFloor_eq _ 0 (by norm_num) (by norm_num)
  have g3b : pymod (9996/10000 : ℚ) 1 = 9996/10000 := by
    unfold pymod
    rw [div_one, ratFloor_eq (9996/10000 : ℚ) 0 (by norm_num) (by norm_num)]
    push_cast
    ring
  have f5b : srtMillis (9996/10000 : ℚ) = 999 := by
    unfold srtMillis
    rw [g3b]
    have hv : (9996/10000 : ℚ) * 1000 = 4998/5 := by norm_num
    rw [hv]
    simp only [pyRound]
    rw [ratFloor_eq (4998/5 : ℚ) 999 (by norm_num) (by norm_num)]
    rw [if_neg (by push_cast; norm_num), if_pos (by push_cast; norm_num)]
    norm_num
  have e3 : format_srt_time (9996/10000 : ℚ) = "00:00:00,999".data :=
    (format_srt_time_eval _ 0 0 0 999 f1b f2b f4b f5b).trans (by decide)
  have e4 : format_vtt_time (9996/10000 : ℚ) = "00:00:00.999".data := by
    unfold format_vtt_time
    rw [e3]
    decide
  refine ⟨hsrt, ?_, e1, e2, e3, e4⟩
  unfold format_vtt_time
  rw [hsrt, replChar_append, replChar_cons, replChar_append, replChar_cons,
    replChar_append, replChar_cons, replChar_padInt, replChar_padInt,
    replChar_padInt, replChar_padInt]
  simp +decide

/-- Witness for `caption_time_format` at `s = 23.4567`. -/
theorem caption_time_format_witness :
    (0 : ℚ) ≤ 234567/10000 ∧
      ((format_srt_time (234567/10000) =
        padInt 2 (Rat.floor ((234567/10000 : ℚ) / 3600)) ++ ':' ::
          padInt 2 (Rat.floor (pymod (234567/10000) 3600 / 60)) ++ ':' ::
          padInt 2 (pyInt (pymod (234567/10000) 60)) ++ ',' ::
          padInt 3 (min (pyRound (((234567/10000 : ℚ) -
            Rat.floor (234567/10000 : ℚ)) * 1000)) 999)) ∧
        (format_vtt_time (234567/10000) =
          padInt 2 (Rat.floor ((234567/10000 : ℚ) / 3600)) ++ ':' ::
            padInt 2 (Rat.floor (pymod (234567/10000) 3600 / 60)) ++ ':' ::
            padInt 2 (pyInt (pymod (234567/10000) 60)) ++ '.' ::
            padInt 3 (min (pyRound (((234567/10000 : ℚ) -
              Rat.floor (234567/10000 : ℚ)) * 1000)) 999)) ∧
        format_srt_time (234567/10000) = "00:00:23,457".data ∧
        format_vtt_time (234567/10000) = "00:00:23.457".data ∧
        format_srt_time (9996/10000) = "00:00:00,999".data ∧
        format_vtt_time (9996/10000) = "00:00:00.999".data) :=
  ⟨by norm_num, caption_time_format (234567/10000) (by norm_num)⟩

lemma mem_of_mem_dropWhileCh (p : Char → Bool) :
    ∀ (l : List Char) (c : Char), c ∈ l.dropWhile p → c ∈ l := by
  intro l
  induction l with
  | nil => intro c hc; simpa using hc
  | cons a t ih =>
    intro c hc
    rw [List.dropWhile_cons] at hc
    by_cases h : p a
    · rw [if_pos h] at hc
      exact List.mem_cons_of_mem a (ih c hc)
    · rw [if_neg h] at hc
      exact hc

lemma head?_dropWhile_ne (p : Char → Bool) :
    ∀ (l : List Char) (x : Char), (l.dropWhile p).head? = some x → p x = false := by
  intro l
  induction l with
  | nil => intro x hx; simp [List.dropWhile] at hx
  | cons a t ih =>
    intro x hx
    rw [List.dropWhile_cons] at hx
    by_cases h : p a
    · rw [if_pos h] at hx
      exact ih x hx
    · rw [if_neg h] at hx
      simp only [List.head?_cons, Option.some.injEq] at hx
      rw [← hx]
      exact Bool.of_not_eq_true h

lemma dropWhile_snoc_shape (p : Char → Bool) (a : Char) :
    ∀ l : List Char, (l ++ [a]).dropWhile p = [] ∨
      ∃ m : List Char, (l ++ [a]).dropWhile p = m ++ [a] := by
  intro l
  induction l with
  | nil =>
    by_cases h : p a
    · left
      simp [List.dropWhile, h]
    · right
      exact ⟨[], by simp [List.dropWhile, h]⟩
  | cons c t ih =>
    by_cases h : p c
    · simpa [List.dropWhile_cons, h] using ih
    · right
      exact ⟨c :: t, by simp [List.dropWhile_cons, h]⟩

lemma stripUnd_front :
    ∀ (s : List Char) (x : Char), (stripUnd s).head? = some x → x ≠ '_' := by
  intro s x hx
  unfold stripUnd at hx
  cases hA : s.dropWhile fun c => c = '_' with
  | nil => rw [hA] at hx; simp at hx
  | cons a t =>
    have ha : a ≠ '_' := by
      have := head?_dropWhile_ne (fun c => c = '_') s a (by rw [hA]; rfl)
      simpa using this
    rw [hA, List.reverse_cons] at hx
    rcases dropWhile_snoc_shape (fun c => c = '_') a t.reverse with h0 | ⟨m, hm⟩
    · rw [h0] at hx
      simp at hx
    · rw [hm] at hx
      rw [List.reverse_append] at hx
      simp only [List.reverse_cons, List.reverse_nil, List.nil_append,
        List.cons_append, List.head?_cons, Option.some.injEq] at hx
      rw [← hx]
      exact ha

lemma stripUnd_back :
    ∀ (s : List Char) (x : Char), (stripUnd s).reverse.head? = some x → x ≠ '_' := by
  intro s x hx
  unfold stripUnd at hx
  rw [List.reverse_reverse] at hx
  have := head?_dropWhile_ne (fun c => c = '_') _ x hx
  simpa using this

lemma mem_stripUnd : ∀ (s : List Char) (c : Char), c ∈ stripUnd s → c ∈ s := by
  intro s c hc
  unfold stripUnd at hc
  rw [List.mem_reverse] at hc
  have h1 := mem_of_mem_dropWhileCh _ _ _ hc
  rw [List.mem_reverse] at h1
  exact mem_of_mem_dropWhileCh _ _ _ h1

lemma replChar_not_mem (a b : Char) (hab : b ≠ a) (s : List Char) :
    a ∉ replChar a b s := by
  intro h
  obtain ⟨y, hy, hfy⟩ := List.mem_map.mp h
  by_cases hya : y = a
  · rw [if_pos hya] at hfy
    exact hab hfy
  · rw [if_neg hya] at hfy
    exact hya hfy

lemma replChar_preserve_not_mem (a b d : Char) (s : List Char)
    (hd : d ∉ s) (hdb : d ≠ b) : d ∉ replChar a b s := by
  intro h
  obtain ⟨y, hy, hfy⟩ := List.mem_map.mp h
  by_cases hya : y = a
  · rw [if_pos hya] at hfy
    exact hdb hfy.symm
  · rw [if_neg hya] at hfy
    exact hd (hfy ▸ hy)

lemma foldl_replace_not_mem :
    ∀ (l : List Char) (s : List Char) (d : Char), d ≠ '_' →
      (d ∈ l ∨ d ∉ s) →
      d ∉ l.foldl (fun acc ch => replChar ch '_' acc) s := by
  intro l
  induction l with
  | nil =>
    intro s d _ h
    rcases h with h | h
    · simp at h
    · simpa using h
  | cons ch rest ih =>
    intro s d hdu h
    rw [List.foldl_cons]
    apply ih _ d hdu
    by_cases hdc : d = ch
    · right
      rw [hdc]
      exact replChar_not_mem ch '_' (by rw [hdc] at hdu; exact fun hh => hdu hh.symm) s
    · rcases h with hmem | hnot
      · rcases List.mem_cons.mp hmem with h1 | h2
        · exact absurd h1 hdc
        · exact Or.inl h2
      · right
        exact replChar_preserve_not_mem ch '_' d s hnot hdu

lemma forbidden_not_mem_replaceForbidden (s : List Char) :
    ∀ d ∈ FORBIDDEN, d ∉ replaceForbidden s := by
  intro d hd
  have hall : ∀ x ∈ FORBIDDEN, x ≠ '_' := by decide
  have hdu : d ≠ '_' := hall d hd
  exact foldl_replace_not_mem FORBIDDEN s d hdu (Or.inl hd)

/-- Claim C8 counterexample: `sanitize_folder_name "__/"` hits the
`or name.strip()` fallback on line 205 and returns `"__/"` verbatim — a
string that contains the forbidden `'/'`, contains two consecutive
underscores, and starts with an underscore. -/
theorem sanitize_fallback_counterexample :
    sanitize_folder_name "__/".data = "__/".data ∧
      ('/' ∈ sanitize_folder_name "__/".data ∧ '/' ∈ FORBIDDEN) ∧
      hasDoubleUnd (sanitize_folder_name "__/".data) = true ∧
      (sanitize_folder_name "__/".data).head? = some '_' := by
  decide

/-- Claim C8 (amended): whenever the sanitized core (strip, underscore
spaces, collapse `"__"`, replace forbidden characters, strip `'_'`) is
nonempty, `sanitize_folder_name` returns it; that result contains none of
`\ / : * ? " < > |` and neither starts nor ends with an underscore —
but it may contain consecutive underscores (adjacent forbidden characters
are replaced *after* the collapsing pass, e.g. `"a/:b" ↦ "a__b"`), and
when the core is empty the whitespace-stripped original is returned
verbatim with no guarantees.  The specific example
`"My  Video/Name?" ↦ "My_Video_Name"` does satisfy all three conditions. -/
theorem sanitize_properties (name : List Char)
    (h : stripUnd (replaceForbidden
        (collapseUnd (replChar ' ' '_' (stripWs name)))) ≠ []) :
    sanitize_folder_name name =
        stripUnd (replaceForbidden
          (collapseUnd (replChar ' ' '_' (stripWs name)))) ∧
      (∀ c ∈ sanitize_folder_name name, c ∉ FORBIDDEN) ∧
      (sanitize_folder_name name).head? ≠ some '_' ∧
      (sanitize_folder_name name).reverse.head? ≠ some '_' ∧
      sanitize_folder_name "a/:b".data = "a__b".data ∧
      sanitize_folder_name "My  Video/Name?".data = "My_Video_Name".data ∧
      (∀ c ∈ sanitize_folder_name "My  Video/Name?".data, c ∉ FORBIDDEN) ∧
      hasDoubleUnd (sanitize_folder_name "My  Video/Name?".data) = false ∧
      (sanitize_folder_name "My  Video/Name?".data).head? ≠ some '_' ∧
      (sanitize_folder_name "My  Video/Name?".data).reverse.head? ≠ some '_' := by
  have hne : name ≠ [] := by
    intro hnil
    rw [hnil] at h
    exact h (by decide)
  have hres : sanitize_folder_name name =
      stripUnd (replaceForbidden
        (collapseUnd (replChar ' ' '_' (stripWs name)))) := by
    unfold sanitize_folder_name
    rw [if_neg hne, if_neg h]
  refine ⟨hres, ?_, ?_, ?_, by decide, by decide,
    by decide, by decide, by decide, by decide⟩
  · intro c hc hcf
    rw [hres] at hc
    exact forbidden_not_mem_replaceForbidden _ c hcf (mem_stripUnd _ c hc)
  · rw [hres]
    intro hh
    exact stripUnd_front _ '_' hh rfl
  · rw [hres]
    intro hh
    exact stripUnd_back _ '_' hh rfl

/-- Witness for `sanitize_properties` at `name = "My  Video/Name?"`. -/
theorem sanitize_properties_witness :
    stripUnd (replaceForbidden
        (collapseUnd (replChar ' ' '_' (stripWs "My  Video/Name?".data)))) ≠ [] ∧
      (sanitize_folder_name "My  Video/Name?".data =
          stripUnd (replaceForbidden
            (collapseUnd (replChar ' ' '_' (stripWs "My  Video/Name?".data)))) ∧
        (∀ c ∈ sanitize_folder_name "My  Video/Name?".data, c ∉ FORBIDDEN) ∧
        (sanitize_folder_name "My  Video/Name?".data).head? ≠ some '_' ∧
        (sanitize_folder_name "My  Video/Name?".data).reverse.head? ≠ some '_' ∧
        sanitize_folder_name "a/:b".data = "a__b".data ∧
        sanitize_folder_name "My  Video/Name?".data = "My_Video_Name".data ∧
        (∀ c ∈ sanitize_folder_name "My  Video/Name?".data, c ∉ FORBIDDEN) ∧
        hasDoubleUnd (sanitize_folder_name "My  Video/Name?".data) = false ∧
        (sanitize_folder_name "My  Video/Name?".data).head? ≠ some '_' ∧
        (sanitize_folder_name "My  Video/Name?".data).reverse.head? ≠ some '_') :=
  ⟨by decide, sanitize_properties "My  Video/Name?".data (by decide)⟩

lemma firstEncodeError_none (enc : Quality → EncodeOutcome) :
    ∀ selected : List Quality, (∀ q ∈ selected, enc q = .ok) →
      firstEncodeError enc selected = none := by
  intro selected
  induction selected with
  | nil => intro _; rfl
  | cons q rest ih =>
    intro h
    rw [firstEncodeError, h q (List.mem_cons_self q rest)]
    exact ih fun x hx => h x (List.mem_cons_of_mem q hx)

/-- Claim C1: when the file exists, every selected quality encodes and the
initial master-playlist write succeeds (no upload configured), any failure
in audio extraction, transcription, or subtitle-playlist creation leaves
the file's result with status `"success"`, a `None` error, and the master
playlist on disk; the failure lands only in `transcript_error`. -/
theorem success_status_invariant (selected : List Quality)
    (outputDir : List Char) (env : WorkerEnv)
    (hf : env.fileExists = true) (henc : ∀ q ∈ selected, env.encode q = .ok)
    (hm : env.masterWriteOk = true) (hs3 : env.s3Enabled = false) :
    (processFile selected outputDir env).1.status = "success".data ∧
      (processFile selected outputDir env).2.masterOnDisk = true ∧
      (processFile selected outputDir env).1.error = none ∧
      (processFile selected outputDir env).1.master_path =
        some (outputDir ++ '/' :: "master.m3u8".data) ∧
      (env.transcribeEnabled = true → env.audioExists = true →
        (env.trans.extractOk = false →
          (processFile selected outputDir env).1.transcript_error =
            some ("Audio extraction failed: ".data ++ env.trans.extractErrMsg)) ∧
        (env.trans.extractOk = true → env.trans.transOk = false →
          (processFile selected outputDir env).1.transcript_error =
            some env.trans.transErrMsg) ∧
        (env.trans.extractOk = true → env.trans.transOk = true →
          env.trans.vttPresent = true → env.trans.subtitlePlaylistOk = false →
          (processFile selected outputDir env).1.transcript_error =
            some ("Subtitle playlist creation failed: ".data ++
              env.trans.subErrMsg))) := by
  have hfe := firstEncodeError_none env.encode selected henc
  simp only [processFile, hf, hfe, hm, hs3, not_true_eq_false, if_false,
    Bool.false_eq_true]
  refine ⟨by trivial, by trivial, by trivial, by trivial, ?_⟩
  intro ht ha
  rw [ht, ha]
  simp only [Bool.and_self, if_true]
  refine ⟨?_, ?_, ?_⟩
  · intro hx
    rw [transStage, hx]
    simp
  · intro hx htr
    rw [transStage, hx, htr]
    simp
  · intro hx htr hv hsp
    rw [transStage, hx, htr, hv, hsp]
    simp

/-- Witness for `success_status_invariant`: one selected quality, audio
present, transcription enabled, extraction failing. -/
theorem success_status_invariant_witness :
    (envExtractFail.fileExists = true ∧
      (∀ q ∈ [Quality.q720], envExtractFail.encode q = .ok) ∧
      envExtractFail.masterWriteOk = true ∧
      envExtractFail.s3Enabled = false) ∧
    ((processFile [Quality.q720] "out".data envExtractFail).1.status =
        "success".data ∧
      (processFile [Quality.q720] "out".data envExtractFail).2.masterOnDisk =
        true ∧
      (processFile [Quality.q720] "out".data envExtractFail).1.error = none ∧
      (processFile [Quality.q720] "out".data envExtractFail).1.master_path =
        some ("out".data ++ '/' :: "master.m3u8".data) ∧
      (envExtractFail.transcribeEnabled = true →
        envExtractFail.audioExists = true →
        (envExtractFail.trans.extractOk = false →
          (processFile [Quality.q720] "out".data
              envExtractFail).1.transcript_error =
            some ("Audio extraction failed: ".data ++
              envExtractFail.trans.extractErrMsg)) ∧
        (envExtractFail.trans.extractOk = true →
          envExtractFail.trans.transOk = false →
          (processFile [Quality.q720] "out".data
              envExtractFail).1.transcript_error =
            some envExtractFail.trans.transErrMsg) ∧
        (envExtractFail.trans.extractOk = true →
          envExtractFail.trans.transOk = true →
          envExtractFail.trans.vttPresent = true →
          envExtractFail.trans.subtitlePlaylistOk = false →
          (processFile [Quality.q720] "out".data
              envExtractFail).1.transcript_error =
            some ("Subtitle playlist creation failed: ".data ++
              envExtractFail.trans.subErrMsg)))) :=
  ⟨⟨rfl, fun q _ => rfl, rfl, rfl⟩,
    success_status_invariant [Quality.q720] "out".data envExtractFail rfl
      (fun q _ => rfl) rfl rfl⟩

/-- Claim C9 counterexample: when the transcription stage runs and audio
extraction itself fails with the external tool having created a partial
output file, no removal is performed (the cleanup on lines 1823-1828 sits
inside the `if success:` branch) and the temp-audio file is still on disk
at the end of the stage. -/
theorem temp_audio_left_behind :
    envExtractFail.transcribeEnabled = true ∧
      envExtractFail.audioExists = true ∧
      envExtractFail.trans.extractOk = false ∧
      envExtractFail.trans.extractLeavesFile = true ∧
      (processFile [Quality.q720] "out".data
        envExtractFail).2.tempAudioOnDisk = true := by
  decide

/-- Claim C9 (amended): whenever the transcription stage runs (the file
exists, all selected qualities encode, the master playlist writes,
transcription enabled, audio present) and the audio extraction succeeds,
the temporary extracted-audio file is removed by the end of the stage
regardless of the transcription and subtitle-playlist outcomes; when
extraction itself fails, no removal is attempted and a partially written
temp file can remain. -/
theorem temp_audio_removed_when_extract_ok (selected : List Quality)
    (outputDir : List Char) (env : WorkerEnv)
    (hf : env.fileExists = true) (henc : ∀ q ∈ selected, env.encode q = .ok)
    (hm : env.masterWriteOk = true) (ht : env.transcribeEnabled = true)
    (ha : env.audioExists = true) (hx : env.trans.extractOk = true) :
    (processFile selected outputDir env).2.tempAudioOnDisk = false := by
  have hfe := firstEncodeError_none env.encode selected henc
  simp only [processFile, hf, hfe, hm, not_true_eq_false, if_false,
    Bool.false_eq_true, ht, ha, Bool.and_self, if_true]
  have htOut : (transStage env.trans).tempAudioOnDisk = false := by
    rw [transStage, hx, if_pos rfl]
    split
    · split
      · split
        · rfl
        · rfl
      · rfl
    · rfl
  by_cases hs3 : env.s3Enabled
  · simp only [hs3, if_true]
    cases env.s3Outcome with
    | ok =>
      by_cases hd : env.s3DeleteLocal
      · simp [hd]
      · simp [hd, htOut]
    | cancelled => simp [htOut]
    | failed m => simp [htOut]
  · simp only [hs3, Bool.false_eq_true, if_false]
    simp [htOut]

/-- Witness for `temp_audio_removed_when_extract_ok`: extraction succeeds
but transcription fails. -/
theorem temp_audio_removed_witness :
    (envExtractOk.fileExists = true ∧
      (∀ q ∈ [Quality.q720], envExtractOk.encode q = .ok) ∧
      envExtractOk.masterWriteOk = true ∧
      envExtractOk.transcribeEnabled = true ∧
      envExtractOk.audioExists = true ∧
      envExtractOk.trans.extractOk = true) ∧
    (processFile [Quality.q720] "out".data
      envExtractOk).2.tempAudioOnDisk = false :=
  ⟨⟨rfl, fun q _ => rfl, rfl, rfl, rfl, rfl⟩,
    temp_audio_removed_when_extract_ok [Quality.q720] "out".data envExtractOk
      rfl (fun q _ => rfl) rfl rfl rfl rfl⟩

end Enlight
